import Mathlib

/-!
Verification of the nanobot agent-loop core against its specification.

The Python sources are shallowly embedded: strings are `String` or
`List Char`, dicts with fixed keys become structures, `None` becomes
`Option`, raised exceptions become `Except`, and the async provider /
tool-registry collaborators become explicit oracle functions passed in.
Cooperative (asyncio) scheduling means code between two `await`
suspension points runs atomically; concurrent behaviour is modelled by
explicit step relations or by sequential composition of the atomic
blocks, as appropriate to each property.
-/

set_option maxRecDepth 8192

namespace Nanobot

/-! ## Python string primitives (for `nanobot/agent/commands.py`)

Text is modelled as `List Char`.  `pyIsSpace` is the Python notion of
whitespace used by `str.strip` and `str.split`. -/

def pyIsSpace (c : Char) : Bool :=
  c = ' ' || c = '\t' || c = '\n' || c = '\r' || c = '\x0b' || c = '\x0c'

/-- Python `str.strip()`: drop leading and trailing whitespace. -/
def pyStrip (s : List Char) : List Char :=
  ((s.dropWhile pyIsSpace).reverse.dropWhile pyIsSpace).reverse

/-- Python `str.split()` (no separator argument): split on runs of
whitespace, never returning empty tokens.  Fuel-based recursion; the
fuel `s.length + 1` always suffices since every round consumes at least
one character. -/
def pySplitAux : Nat → List Char → List (List Char)
  | 0, _ => []
  | fuel + 1, s =>
    match s.dropWhile pyIsSpace with
    | [] => []
    | c :: rest =>
      ((c :: rest).takeWhile (fun d => !pyIsSpace d)) ::
        pySplitAux fuel ((c :: rest).dropWhile (fun d => !pyIsSpace d))

def pySplit (s : List Char) : List (List Char) :=
  pySplitAux (s.length + 1) s

/-- Python `str.lower()` (ASCII case folding suffices for the commands). -/
def pyLower (s : List Char) : List Char :=
  s.map Char.toLower

/-! ## `nanobot/agent/commands.py` -/

/-- `parse_command(text)`: strip the text; if the result does not start
with `/` return `None`; otherwise return the lowercased first
whitespace-delimited token.  (`stripped.split()[0]` cannot fail because
`stripped` starts with the non-whitespace character `/`; the `headD []`
default is dead code.) -/
def parse_command (text : List Char) : Option (List Char) :=
  let stripped := pyStrip text
  if stripped.head? = some '/' then
    some (pyLower ((pySplit stripped).headD []))
  else
    none

/-- The spec, in its own words: "trims whitespace; if the trimmed text
does not start with the command sigil, returns none; otherwise returns
the lowercased first whitespace-delimited token".  Stated independently
of `str.split`: the first whitespace-delimited token of a string whose
head is the sigil is its longest non-whitespace prefix. -/
def parseCommandSpec (text : List Char) : Option (List Char) :=
  let t := pyStrip text
  if t.head? = some '/' then
    some (pyLower (t.takeWhile (fun d => !pyIsSpace d)))
  else
    none

/-! ## Data model

Messages are the role-tagged dicts the Python code passes around.  A
Python dict with a fixed key set becomes a structure; keys that a given
role never sets are `none` / `[]`.  The runtime duck-typing between
dicts and attribute objects collapses into this single representation. -/

structure ToolCall where
  id : String
  name : String
  arguments : List (String × String)
  deriving DecidableEq

structure Msg where
  role : String
  content : String
  tool_call_id : Option String
  name : Option String
  tool_calls : List ToolCall
  deriving DecidableEq

structure ProviderResponse where
  content : Option String
  tool_calls : List ToolCall
  deriving DecidableEq

/-- The LLM provider capability (`provider.chat`), as an oracle: the
message log determines either a provider error or a response. -/
abbrev Chat := List Msg → Except String ProviderResponse

/-- The tool registry / adapter capability (`execute(name, arguments)`),
as an oracle: success is a textual result, failure a named error. -/
abbrev Exec := String → List (String × String) → Except String String

/-- `SubagentTask` entries of the shared `subagent_tasks` list. -/
structure TaskEntry where
  task_id : String
  status : String
  label : Option String
  task : String
  result : Option String
  started_at : Option String
  completed_at : Option String
  deriving DecidableEq

/-- `AgentState` (`nanobot/langgraph/graph/state.py`): the main-agent
state dict, restricted to the fields the verified core touches. -/
structure AgentState where
  messages : List Msg
  current_tools : List String
  subagent_tasks : List TaskEntry
  deriving DecidableEq

/-- `SubagentState` (`nanobot/langgraph/graph/state.py`). -/
structure SubagentState where
  task_id : String
  task : String
  initial_context : List (String × String)
  messages : List Msg
  iteration : Nat
  max_iterations : Nat
  result : Option String
  status : String
  deriving DecidableEq

/-- Python `x or y` on strings wrapped in `Option`: `None` and the empty
string are falsy. -/
def pyOrStr (o : Option String) (d : String) : String :=
  match o with
  | some s => if s = "" then d else s
  | none => d

/-! ## `nanobot/langgraph/nodes/tools_node.py` -/

/-- One round of the per-call body of `execute_tools`: the appended
tool-role message, success or failure
(`f"Error executing {tool_name}: {str(e)}"`). -/
def toolResultMsg (exec : Exec) (tc : ToolCall) : Msg :=
  match exec tc.name tc.arguments with
  | .ok r => ⟨"tool", r, some tc.id, some tc.name, []⟩
  | .error e => ⟨"tool", "Error executing " ++ tc.name ++ ": " ++ e, some tc.id, some tc.name, []⟩

/-- `execute_tools(state, config)`.  `state["messages"][-1]` raises
`IndexError` on an empty log (modelled as `Except.error`); with no tool
calls on the last message the state is returned unchanged; otherwise one
tool message per call is appended, in call order.  (The Python
`if not last_message` guard can never fire: a non-empty dict is truthy.) -/
def execute_tools (exec : Exec) (st : AgentState) : Except String AgentState :=
  match st.messages.getLast? with
  | none => .error "IndexError"
  | some last =>
    if last.tool_calls.isEmpty then .ok st
    else .ok { st with messages := st.messages ++ last.tool_calls.map (toolResultMsg exec) }

/-! ## `nanobot/langgraph/subagent/manager.py` -/

/-- `SubagentManager._build_subagent_prompt`. -/
def build_subagent_prompt (task : String) : String :=
  "# Subagent\n\nYou are a subagent spawned by the main agent to complete a specific task.\n\n## Task\n"
    ++ task
    ++ "\n\n## Rules\n1. Stay focused - complete only the assigned task\n2. You may request adjustments from the main agent every 3 iterations\n3. Be concise but informative\n\n## What You Cannot Do\n- Send messages directly to users\n- Spawn other subagents\n- Access the main agent\x27s conversation history (only initial context provided)"

/-- Per-call body of the subagent tool loop: the appended tool-role
message, success or failure (`f"Error: {str(e)}"`). -/
def subToolMsg (exec : Exec) (tc : ToolCall) : Msg :=
  match exec tc.name tc.arguments with
  | .ok r => ⟨"tool", r, some tc.id, some tc.name, []⟩
  | .error e => ⟨"tool", "Error: " ++ e, some tc.id, some tc.name, []⟩

/-- An invocation of `messenger.request_adjustment(task_id, current_context)`
made by the subagent loop, recording exactly the arguments passed. -/
structure AdjustmentRequest where
  task_id : String
  context : List Msg
  deriving DecidableEq

/-- The `while` loop of `SubagentManager.run_subagent`, with fuel.  The
fuel starts at `max_iterations`; since every recursive call increments
`iteration`, the guard `iteration < max_iterations` is already false
whenever the fuel runs out, so the fuel cutoff is never the reason the
loop stops.  The value returned by `request_adjustment` is discarded by
the source (and `handle_adjustment` is a no-op), so the loop only
records the request; delivery or timeout cannot change the loop state. -/
def runLoop (chat : Chat) (exec : Exec) :
    Nat → SubagentState → List AdjustmentRequest → SubagentState × List AdjustmentRequest
  | 0, st, reqs => (st, reqs)
  | fuel + 1, st, reqs =>
    if st.iteration < st.max_iterations then
      let st1 : SubagentState := { st with iteration := st.iteration + 1 }
      match chat st1.messages with
      | .error e =>
        ({ st1 with status := "failed", result := some ("Error: " ++ e) }, reqs)
      | .ok resp =>
        match resp.tool_calls with
        | [] => ({ st1 with result := resp.content, status := "completed" }, reqs)
        | _ :: _ =>
          let asst : Msg := ⟨"assistant", (pyOrStr resp.content ""), none, none, resp.tool_calls⟩
          let st2 : SubagentState :=
            { st1 with messages := (st1.messages ++ [asst]) ++ resp.tool_calls.map (subToolMsg exec) }
          let reqs2 :=
            if st2.iteration % 3 = 0 then reqs ++ [⟨st2.task_id, st2.messages⟩] else reqs
          runLoop chat exec fuel st2 reqs2
    else
      (st, reqs)

/-- The initial `SubagentState` built by `run_subagent`. -/
def initialSubagentState (task_id task : String) (initial_context : List (String × String)) :
    SubagentState :=
  { task_id := task_id, task := task, initial_context := initial_context,
    messages := [⟨"system", build_subagent_prompt task, none, none, []⟩,
                 ⟨"user", task, none, none, []⟩],
    iteration := 0, max_iterations := 15, result := none, status := "running" }

/-- `SubagentManager.run_subagent` up to (not including) the final
`_announce_completion` call: the terminal `SubagentState` plus the list
of adjustment requests the loop issued. -/
def run_subagent (chat : Chat) (exec : Exec) (task_id task : String)
    (initial_context : List (String × String)) : SubagentState × List AdjustmentRequest :=
  runLoop chat exec 15 (initialSubagentState task_id task initial_context) []

/-- The completion-summary content built by `_announce_completion`
(Python `label or "subagent"` / `result or "No result"`). -/
def announceContent (label : Option String) (task : String) (result : Option String) : String :=
  "[Subagent \x27" ++ pyOrStr label "subagent" ++ "\x27 completed]\n\nTask: " ++ task
    ++ "\n\nResult:\n" ++ pyOrStr result "No result"
    ++ "\n\nSummarize this naturally for the user. Keep it brief (1-2 sentences)."

/-- The `for task_entry in updated_tasks` pass of `_announce_completion`:
the first entry whose `task_id` matches is set to `status="completed"`
with the result and timestamp, then the loop `break`s. -/
def updateTaskList (tasks : List TaskEntry) (task_id : String) (result : Option String)
    (now : String) : List TaskEntry :=
  match tasks with
  | [] => []
  | e :: rest =>
    if e.task_id = task_id then
      { e with status := "completed", result := result, completed_at := some now } :: rest
    else
      e :: updateTaskList rest task_id result now

/-- `SubagentManager._announce_completion`.  The source copies the task
list, updates the matching entry, writes the list back, and appends one
system-role summary message by copy-and-replace.  The whole body has no
`await`, so under cooperative scheduling it runs atomically; it is
therefore modelled as one state transformation. -/
def announce_completion (task_id : String) (label : Option String) (task : String)
    (result : Option String) (now : String) (state_ref : AgentState) : AgentState :=
  { state_ref with
    subagent_tasks := updateTaskList state_ref.subagent_tasks task_id result now,
    messages := state_ref.messages ++
      [⟨"system", announceContent label task result, none, none, []⟩] }

/-- All of `SubagentManager.run_subagent`: the ReAct loop followed by
`_announce_completion` on the shared main-agent state (line 132 of the
source, reached on every termination path). -/
def run_subagent_full (chat : Chat) (exec : Exec) (task_id task : String)
    (label : Option String) (initial_context : List (String × String)) (now : String)
    (state_ref : AgentState) :
    (SubagentState × List AdjustmentRequest) × AgentState :=
  let r := run_subagent chat exec task_id task initial_context
  (r, announce_completion task_id label task r.1.result now state_ref)

/-! ## `nanobot/langgraph/subagent/messenger.py` -/

/-- An adjustment payload (a Python dict). -/
abbrev Adjustment := List (String × String)

/-- `SubagentMessenger._pending_adjustments`: the dict mapping task_id
to its single-slot `asyncio.Queue`; a queue is modelled by its list of
enqueued adjustments. -/
structure MessengerState where
  pending : List (String × List Adjustment)
  deriving DecidableEq

/-- Dict lookup `self._pending_adjustments.get(task_id)`. -/
def lookupQueue (ms : MessengerState) (task_id : String) : Option (List Adjustment) :=
  (ms.pending.find? (fun p => p.1 = task_id)).map (fun p => p.2)

/-- Dict assignment `self._pending_adjustments[task_id] = q`. -/
def setQueue (ms : MessengerState) (task_id : String) (q : List Adjustment) : MessengerState :=
  ⟨(task_id, q) :: ms.pending.filter (fun p => ¬ p.1 = task_id)⟩

/-- Dict removal `self._pending_adjustments.pop(task_id, None)`. -/
def removeQueue (ms : MessengerState) (task_id : String) : MessengerState :=
  ⟨ms.pending.filter (fun p => ¬ p.1 = task_id)⟩

/-- The bounded context the messenger embeds in the published request:
`current_context[-5:] if len(current_context) > 5 else current_context`. -/
def contextTail (ctx : List Msg) : List Msg :=
  if ctx.length > 5 then ctx.drop (ctx.length - 5) else ctx

/-- Outcome of the `asyncio.wait_for(queue.get(), timeout=30.0)`
suspension point: an adjustment arrived within the 30-second window, or
the wait timed out. -/
inductive WaitOutcome where
  | delivered (adj : Adjustment)
  | timeout
  deriving DecidableEq

/-- A request event published on the bus (`bus.publish_inbound`), with
the context tail it carries. -/
structure PublishedRequest where
  task_id : String
  context_tail : List Msg
  deriving DecidableEq

/-- `SubagentMessenger.request_adjustment(task_id, current_context)`.
The two suspension points become inputs: `publishOk` is whether
`bus.publish_inbound` succeeded, `outcome` what the 30-second wait saw.
Returns the function result, the new pending table, and the published
events.  Source control flow: the queue entry is created first; if
publishing raises, `None` is returned from the `except` block *before*
the `try/finally` around the wait, so the entry is **not** removed on
that path; on the delivered and timeout paths the `finally` pops the
entry. -/
def request_adjustment (ms : MessengerState) (task_id : String) (current_context : List Msg)
    (publishOk : Bool) (outcome : WaitOutcome) :
    Option Adjustment × MessengerState × List PublishedRequest :=
  let ms1 := setQueue ms task_id []
  if publishOk then
    match outcome with
    | .delivered adj =>
        (some adj, removeQueue ms1 task_id, [⟨task_id, contextTail current_context⟩])
    | .timeout =>
        (none, removeQueue ms1 task_id, [⟨task_id, contextTail current_context⟩])
  else
    (none, ms1, [])

/-- `SubagentMessenger.deliver_adjustment(task_id, adjustment)`: enqueue
into the pending queue if one exists, otherwise a logged no-op.  (An
`asyncio.Queue` object is always truthy, so `if queue:` tests presence
of the dict entry.) -/
def deliver_adjustment (ms : MessengerState) (task_id : String) (adj : Adjustment) :
    MessengerState :=
  match lookupQueue ms task_id with
  | some q => setQueue ms task_id (q ++ [adj])
  | none => ms

/-! ## `nanobot/langgraph/bridge.py` -/

structure InboundMessage where
  channel : String
  sender_id : String
  chat_id : String
  content : String
  metadata : List (String × String)
  deriving DecidableEq

structure OutboundMessage where
  channel : String
  chat_id : String
  content : String
  metadata : List (String × String)
  deriving DecidableEq

/-- Python `a or b` on dicts wrapped in `Option` (an empty dict is
falsy; trailing `or {}` yields the empty dict). -/
def pyOrDict (a : Option (List (String × String))) (b : List (String × String)) :
    List (String × String) :=
  match a with
  | some m => if m.isEmpty then b else m
  | none => b

/-- `translate_result_to_outbound(result, msg, metadata)`: the content
is the last assistant message (scanning in reverse); if that is empty
and the log is non-empty, the last message content, with
`"Task completed."` replacing an empty string. -/
def translate_result_to_outbound (result_messages : List Msg) (msg : InboundMessage)
    (metadata : Option (List (String × String))) : OutboundMessage :=
  let final1 :=
    ((result_messages.reverse.find? (fun m => m.role = "assistant")).map Msg.content).getD ""
  let final_content :=
    if final1 = "" then
      match result_messages.getLast? with
      | some last => if last.content = "" then "Task completed." else last.content
      | none => final1
    else final1
  { channel := msg.channel, chat_id := msg.chat_id, content := final_content,
    metadata := pyOrDict metadata msg.metadata }

/-- `LangGraphBridge.process`.  The agent invocation
(`self.agent.ainvoke`, a suspension point) is an input: either a result
state or a raised exception.  The `try/except Exception` spans the whole
body, so a raising invocation is converted to an error-content
`OutboundMessage`.  The `Except` in the return type stands for anything
`process` itself would let escape; the theorem shows it never does. -/
def process (msg : InboundMessage) (invocation : Except String (List Msg)) :
    Except String OutboundMessage :=
  match invocation with
  | .ok result_messages => .ok (translate_result_to_outbound result_messages msg none)
  | .error e =>
      .ok { channel := msg.channel, chat_id := msg.chat_id,
            content := "Sorry, I encountered an error: " ++ e,
            metadata := pyOrDict (some msg.metadata) [] }

/-! ## Session Dispatcher serialization (`nanobot/agent/loop.py`)

Modelled from the spec: the Session Dispatcher (`AgentLoop._dispatch`
with its `_processing_lock`, in `nanobot/agent/loop.py`) is not among
the source files — only its tests (`tests/test_task_cancel.py`) refer to
it.  The spec: "acquire the session serialization lock (blocking if
busy) before invoking the Turn Executor; this guarantees at-most-one
concurrent turn per session key, and guarantees FIFO ordering of turns
submitted to the same key."  The model: turns submitted to one session
key, each the program acquire-lock / start turn / end turn / release;
the lock grants in FIFO submission order (asyncio.Lock wakes waiters in
arrival order).  A step relation interleaves the submitted turns. -/

inductive Phase where
  | waiting
  | ready
  | started
  | done
  deriving DecidableEq

inductive TurnEvent where
  | start (i : Nat)
  | finish (i : Nat)
  deriving DecidableEq

/-- Modelled from the spec: the per-session-key state of the missing
`AgentLoop._dispatch` / `_processing_lock` (`nanobot/agent/loop.py`):
the lock owner, the FIFO queue of turns waiting for the lock, the
per-turn phase, and the observable start/finish trace. -/
structure DispatchState where
  owner : Option Nat
  waiters : List Nat
  phase : Nat → Phase
  trace : List TurnEvent

/-- Pointwise update of the phase map. -/
def setPhase (f : Nat → Phase) (i : Nat) (v : Phase) : Nat → Phase :=
  fun j => if j = i then v else f j

/-- Modelled from the spec: one scheduler step of the missing
dispatcher — grant the lock to the head waiter (FIFO, as asyncio.Lock
wakes waiters in arrival order), let the lock holder begin its turn, or
let the running turn finish and release the lock.  Start and finish are
the observable events of the spec's interleaving test. -/
inductive DStep : DispatchState → DispatchState → Prop where
  | grant (s : DispatchState) (i : Nat) (rest : List Nat)
      (hown : s.owner = none) (hw : s.waiters = i :: rest) :
      DStep s ⟨some i, rest, setPhase s.phase i .ready, s.trace⟩
  | launch (s : DispatchState) (i : Nat)
      (hph : s.phase i = .ready) (hown : s.owner = some i) :
      DStep s ⟨s.owner, s.waiters, setPhase s.phase i .started, s.trace ++ [.start i]⟩
  | finish (s : DispatchState) (i : Nat)
      (hph : s.phase i = .started) :
      DStep s ⟨none, s.waiters, setPhase s.phase i .done, s.trace ++ [.finish i]⟩

/-- Two turns `0` and `1` submitted concurrently to the same session
key, in that order; nothing has run yet. -/
def initTwo : DispatchState :=
  ⟨none, [0, 1], fun _ => .waiting, []⟩

/-- Reachability under the scheduler. -/
def DReach : DispatchState → DispatchState → Prop :=
  Relation.ReflTransGen DStep

/-- A turn is running when it has started and not yet finished. -/
def isRunning (s : DispatchState) (i : Nat) : Prop :=
  s.phase i = .started

/-- No scheduler step is possible: the execution is complete. -/
def DStuck (s : DispatchState) : Prop :=
  ¬ ∃ s', DStep s s'

/-! ## Concrete oracles used in counterexamples and witnesses -/

/-- A provider that always requests one tool call: the subagent never
produces a final answer and exhausts its iteration ceiling. -/
def chatAlwaysTool : Chat := fun _ => .ok ⟨none, [⟨"c1", "t", []⟩]⟩

/-- A tool registry whose every call succeeds with `"r"`. -/
def execOk : Exec := fun _ _ => .ok "r"

/-- A provider that requests one call of `tool1` on the first iteration
(when the log still has only the system and user messages) and then
answers without tool calls. -/
def chatOnce : Chat := fun msgs =>
  if msgs.length ≤ 2 then .ok ⟨none, [⟨"c1", "tool1", []⟩]⟩ else .ok ⟨some "done", []⟩

/-- A tool registry whose every call raises `"boom"`. -/
def execFail : Exec := fun _ _ => .error "boom"

/-- The terminal statuses of a `TurnState` (`status` leaves `"running"`
for good only at `"completed"` or `"failed"`). -/
def isTerminalStatus (s : String) : Bool := s = "completed" || s = "failed"

/-! ## One tool-calling iteration of the subagent loop, factored out -/

/-- The `SubagentState` after the `tool_calls` branch of one `runLoop`
iteration: the iteration counter is incremented, the assistant message
with its calls is appended, then one tool message per call. -/
def subIterState (exec : Exec) (st : SubagentState) (resp : ProviderResponse) : SubagentState :=
  { st with
    iteration := st.iteration + 1,
    messages := (st.messages ++
        [⟨"assistant", pyOrStr resp.content "", none, none, resp.tool_calls⟩])
      ++ resp.tool_calls.map (subToolMsg exec) }

/-- The adjustment-request log after that iteration: on every 3rd
iteration the loop calls `request_adjustment` with the **entire**
current message log. -/
def subIterReqs (exec : Exec) (st : SubagentState) (resp : ProviderResponse)
    (reqs : List AdjustmentRequest) : List AdjustmentRequest :=
  if (st.iteration + 1) % 3 = 0 then
    reqs ++ [⟨st.task_id, (subIterState exec st resp).messages⟩]
  else reqs

/-- A provider that requests tool calls while the log is shorter than 8
messages and then answers: the subagent runs exactly 4 iterations and
issues exactly one adjustment request, at iteration 3. -/
def chatThree : Chat := fun msgs =>
  if msgs.length < 8 then .ok ⟨none, [⟨"c1", "t", []⟩]⟩ else .ok ⟨some "done", []⟩

/-- Turn 0 holds the lock, neither turn has started. -/
def dState1 : DispatchState := ⟨some 0, [1], setPhase initTwo.phase 0 .ready, []⟩

/-- Turn 0 is running. -/
def dState2 : DispatchState :=
  ⟨some 0, [1], setPhase dState1.phase 0 .started, [.start 0]⟩

/-- Turn 0 finished and released the lock. -/
def dState3 : DispatchState :=
  ⟨none, [1], setPhase dState2.phase 0 .done, [.start 0, .finish 0]⟩

/-- Turn 1 holds the lock. -/
def dState4 : DispatchState :=
  ⟨some 1, [], setPhase dState3.phase 1 .ready, [.start 0, .finish 0]⟩

/-- Turn 1 is running. -/
def dState5 : DispatchState :=
  ⟨some 1, [], setPhase dState4.phase 1 .started, [.start 0, .finish 0, .start 1]⟩

/-- Both turns done: the complete execution. -/
def dState6 : DispatchState :=
  ⟨none, [], setPhase dState5.phase 1 .done, [.start 0, .finish 0, .start 1, .finish 1]⟩

/-! ## C9: the command parser -/

theorem pySplit_head_nonspace (c : Char) (rest : List Char) (hc : pyIsSpace c = false) :
    (pySplit (c :: rest)).head?.getD [] = (c :: rest).takeWhile (fun d => !pyIsSpace d) := by
  simp [pySplit, pySplitAux, List.dropWhile_cons, hc]

/-- C9: for every input string, `parse_command` trims whitespace,
returns `none` if the trimmed text does not start with `/`, and
otherwise returns the lowercased first whitespace-delimited token (the
spec-worded `parseCommandSpec`); it is a pure function, and in
particular `parse_command "  /STOP"` equals `parse_command "/stop"`. -/
theorem c9_parse_command_spec :
    (∀ s : List Char, parse_command s = parseCommandSpec s) ∧
      parse_command ("  /STOP".toList) = parse_command ("/stop".toList) := by
  refine ⟨fun s => ?_, by decide⟩
  simp only [parse_command, parseCommandSpec]
  by_cases h : (pyStrip s).head? = some '/'
  · obtain ⟨rest, hrest⟩ : ∃ rest, pyStrip s = '/' :: rest := by
      cases hs : pyStrip s with
      | nil => rw [hs] at h; exact absurd h (by simp)
      | cons a t =>
        rw [hs] at h
        simp only [List.head?_cons, Option.some.injEq] at h
        exact ⟨t, by rw [h]⟩
    rw [if_pos h, if_pos h, hrest]
    rw [show (pySplit ('/' :: rest)).headD [] = (pySplit ('/' :: rest)).head?.getD [] from
      List.headD_eq_head?_getD]
    rw [pySplit_head_nonspace '/' rest (by decide)]
  · rw [if_neg h, if_neg h]

/-- C9 witness: the theorem at a concrete input. -/
theorem c9_witness :
    parse_command ("/NEW  some args".toList) = parseCommandSpec ("/NEW  some args".toList) :=
  c9_parse_command_spec.1 ("/NEW  some args".toList)

/-! ## C3: tool results appended in order, correlated by id -/

theorem execute_tools_eq (exec : Exec) (st : AgentState) (pre : List Msg) (last : Msg)
    (hm : st.messages = pre ++ [last]) (hne : last.tool_calls ≠ []) :
    execute_tools exec st =
      .ok { st with messages := st.messages ++ last.tool_calls.map (toolResultMsg exec) } := by
  unfold execute_tools
  rw [hm, List.getLast?_concat]
  simp only [List.isEmpty_eq_true]
  rw [if_neg hne]

theorem toolResultMsg_fields (exec : Exec) (tc : ToolCall) :
    (toolResultMsg exec tc).role = "tool" ∧
      (toolResultMsg exec tc).tool_call_id = some tc.id := by
  unfold toolResultMsg
  rcases exec tc.name tc.arguments with e | r <;> exact ⟨rfl, rfl⟩

/-- Unfolding lemma: a `runLoop` iteration whose provider response
carries tool calls continues the loop on `subIterState`/`subIterReqs`. -/
theorem runLoop_succ_tools (chat : Chat) (exec : Exec) (fuel : Nat)
    (st : SubagentState) (reqs : List AdjustmentRequest) (resp : ProviderResponse)
    (hguard : st.iteration < st.max_iterations)
    (hre : chat st.messages = Except.ok resp)
    (hnz : resp.tool_calls ≠ []) :
    runLoop chat exec (fuel + 1) st reqs =
      runLoop chat exec fuel (subIterState exec st resp) (subIterReqs exec st resp reqs) := by
  obtain ⟨rc, rt⟩ := resp
  cases rt with
  | nil => exact absurd rfl hnz
  | cons tc tcs =>
    simp only [runLoop, if_pos hguard]
    rw [show ({ st with iteration := st.iteration + 1 } : SubagentState).messages
        = st.messages from rfl]
    rw [hre]
    rfl

theorem subToolMsg_fields (exec : Exec) (tc : ToolCall) :
    (subToolMsg exec tc).role = "tool" ∧
      (subToolMsg exec tc).tool_call_id = some tc.id := by
  unfold subToolMsg
  rcases exec tc.name tc.arguments with e | r <;> exact ⟨rfl, rfl⟩

theorem subIterState_messages_count (exec : Exec) (st : SubagentState)
    (resp : ProviderResponse) :
    (subIterState exec st resp).messages.length =
      st.messages.length + 1 + resp.tool_calls.length := by
  simp only [subIterState, List.length_append, List.length_map, List.length_cons,
    List.length_nil]

theorem subIterState_messages_get (exec : Exec) (st : SubagentState)
    (resp : ProviderResponse) (i : Nat) (tc : ToolCall)
    (htc : resp.tool_calls[i]? = some tc) :
    (subIterState exec st resp).messages[st.messages.length + 1 + i]? =
      some (subToolMsg exec tc) := by
  show ((st.messages ++
      [⟨"assistant", pyOrStr resp.content "", none, none, resp.tool_calls⟩])
      ++ resp.tool_calls.map (subToolMsg exec))[st.messages.length + 1 + i]? = _
  rw [List.getElem?_append_right (by simp)]
  have hidx : st.messages.length + 1 + i -
      (st.messages ++
        [(⟨"assistant", pyOrStr resp.content "", none, none, resp.tool_calls⟩ : Msg)]).length
      = i := by
    simp
  rw [hidx, List.getElem?_map, htc]
  rfl

/-- C3: in both turn executors — the main tools node (`execute_tools`)
and the subagent ReAct loop (`runLoop`) — a turn iteration whose
provider response carries `N ≥ 1` tool calls appends exactly `N`
tool-role messages, in the exact order the provider returned the calls,
the `i`-th appended tool message carrying the id of the `i`-th requested
call (in the subagent loop the `N` tool messages follow the one
assistant message carrying the calls, and the loop then continues). -/
theorem c3_tool_messages_in_order (exec : Exec) :
    (∀ (st : AgentState) (pre : List Msg) (last : Msg),
      st.messages = pre ++ [last] → last.tool_calls ≠ [] →
      ∃ st', execute_tools exec st = .ok st' ∧
        st'.messages = st.messages ++ last.tool_calls.map (toolResultMsg exec) ∧
        st'.messages.length = st.messages.length + last.tool_calls.length ∧
        ∀ i tc, last.tool_calls[i]? = some tc →
          st'.messages[st.messages.length + i]? = some (toolResultMsg exec tc) ∧
          (toolResultMsg exec tc).role = "tool" ∧
          (toolResultMsg exec tc).tool_call_id = some tc.id) ∧
    (∀ (chat : Chat) (fuel : Nat) (st : SubagentState) (reqs : List AdjustmentRequest)
        (resp : ProviderResponse),
      st.iteration < st.max_iterations → chat st.messages = Except.ok resp →
      resp.tool_calls ≠ [] →
      runLoop chat exec (fuel + 1) st reqs =
          runLoop chat exec fuel (subIterState exec st resp) (subIterReqs exec st resp reqs) ∧
        (subIterState exec st resp).messages =
          (st.messages ++
            [⟨"assistant", pyOrStr resp.content "", none, none, resp.tool_calls⟩])
            ++ resp.tool_calls.map (subToolMsg exec) ∧
        (subIterState exec st resp).messages.length =
          st.messages.length + 1 + resp.tool_calls.length ∧
        ∀ i tc, resp.tool_calls[i]? = some tc →
          (subIterState exec st resp).messages[st.messages.length + 1 + i]? =
              some (subToolMsg exec tc) ∧
            (subToolMsg exec tc).role = "tool" ∧
            (subToolMsg exec tc).tool_call_id = some tc.id) := by
  constructor
  · intro st pre last hm hne
    refine ⟨_, execute_tools_eq exec st pre last hm hne, rfl, by simp, ?_⟩
    intro i tc htc
    have hlen : i < last.tool_calls.length := by
      have := List.getElem?_eq_some_iff.mp htc
      exact this.1
    refine ⟨?_, toolResultMsg_fields exec tc⟩
    rw [List.getElem?_append_right (by omega)]
    simp only [Nat.add_sub_cancel_left]
    rw [List.getElem?_map, htc]
    rfl
  · intro chat fuel st reqs resp hguard hre hnz
    refine ⟨runLoop_succ_tools chat exec fuel st reqs resp hguard hre hnz, rfl,
      subIterState_messages_count exec st resp, ?_⟩
    intro i tc htc
    exact ⟨subIterState_messages_get exec st resp i tc htc, subToolMsg_fields exec tc⟩

/-- C3 witness: a concrete two-call response through the tools node, and
a concrete one-call iteration of the subagent loop. -/
theorem c3_witness :
    (∃ st', execute_tools execOk
        ⟨[⟨"assistant", "", none, none, [⟨"i1", "a", []⟩, ⟨"i2", "b", []⟩]⟩], [], []⟩ = .ok st' ∧
      st'.messages = [⟨"assistant", "", none, none, [⟨"i1", "a", []⟩, ⟨"i2", "b", []⟩]⟩] ++
        [⟨"i1", "a", []⟩, ⟨"i2", "b", []⟩].map (toolResultMsg execOk) ∧
      st'.messages.length = 1 + 2 ∧
      ∀ i tc, ([⟨"i1", "a", []⟩, ⟨"i2", "b", []⟩] : List ToolCall)[i]? = some tc →
        st'.messages[1 + i]? = some (toolResultMsg execOk tc) ∧
        (toolResultMsg execOk tc).role = "tool" ∧
        (toolResultMsg execOk tc).tool_call_id = some tc.id) ∧
    (runLoop chatAlwaysTool execOk (0 + 1) (initialSubagentState "tid" "task" []) [] =
        runLoop chatAlwaysTool execOk 0
          (subIterState execOk (initialSubagentState "tid" "task" [])
            ⟨none, [⟨"c1", "t", []⟩]⟩)
          (subIterReqs execOk (initialSubagentState "tid" "task" [])
            ⟨none, [⟨"c1", "t", []⟩]⟩ []) ∧
      (subIterState execOk (initialSubagentState "tid" "task" [])
          ⟨none, [⟨"c1", "t", []⟩]⟩).messages =
        ((initialSubagentState "tid" "task" []).messages ++
          [⟨"assistant", pyOrStr none "", none, none, [⟨"c1", "t", []⟩]⟩]) ++
          ([⟨"c1", "t", []⟩] : List ToolCall).map (subToolMsg execOk) ∧
      (subIterState execOk (initialSubagentState "tid" "task" [])
          ⟨none, [⟨"c1", "t", []⟩]⟩).messages.length =
        (initialSubagentState "tid" "task" []).messages.length + 1 +
          ([⟨"c1", "t", []⟩] : List ToolCall).length ∧
      ∀ i tc, ([⟨"c1", "t", []⟩] : List ToolCall)[i]? = some tc →
        (subIterState execOk (initialSubagentState "tid" "task" [])
            ⟨none, [⟨"c1", "t", []⟩]⟩).messages[
          (initialSubagentState "tid" "task" []).messages.length + 1 + i]? =
            some (subToolMsg execOk tc) ∧
          (subToolMsg execOk tc).role = "tool" ∧
          (subToolMsg execOk tc).tool_call_id = some tc.id) :=
  ⟨(c3_tool_messages_in_order execOk).1
      ⟨[⟨"assistant", "", none, none, [⟨"i1", "a", []⟩, ⟨"i2", "b", []⟩]⟩], [], []⟩ []
      ⟨"assistant", "", none, none, [⟨"i1", "a", []⟩, ⟨"i2", "b", []⟩]⟩ rfl (by decide),
    (c3_tool_messages_in_order execOk).2 chatAlwaysTool 0
      (initialSubagentState "tid" "task" []) [] ⟨none, [⟨"c1", "t", []⟩]⟩
      (by decide) rfl (by decide)⟩

/-! ## C7: the dispatch boundary converts exceptions to outbound errors -/

/-- C7: `LangGraphBridge.process` always returns an `OutboundMessage`
routed back to the inbound channel/chat, and never propagates an
exception raised by turn processing; a raising invocation becomes the
error-content message. -/
theorem c7_process_never_raises (msg : InboundMessage)
    (invocation : Except String (List Msg)) :
    ∃ out, process msg invocation = .ok out ∧ out.channel = msg.channel ∧
      out.chat_id = msg.chat_id ∧
      ∀ e, invocation = .error e → out.content = "Sorry, I encountered an error: " ++ e := by
  cases invocation with
  | ok msgs =>
    exact ⟨_, rfl, rfl, rfl, fun e h => by cases h⟩
  | error e =>
    exact ⟨_, rfl, rfl, rfl, fun e' h => by cases h; rfl⟩

/-- C7 witness: a concrete raising invocation. -/
theorem c7_witness :
    ∃ out, process ⟨"telegram", "u1", "c1", "hi", []⟩ (.error "boom") = .ok out ∧
      out.channel = "telegram" ∧ out.chat_id = "c1" ∧
      ∀ e, (Except.error "boom" : Except String (List Msg)) = .error e →
        out.content = "Sorry, I encountered an error: " ++ e :=
  c7_process_never_raises ⟨"telegram", "u1", "c1", "hi", []⟩ (.error "boom")

/-! ## C4: the adjustment correlation table -/

theorem find?_filter_self_none (l : List (String × List Adjustment)) (tid : String) :
    (l.filter (fun p => ¬ p.1 = tid)).find? (fun p => p.1 = tid) = none := by
  induction l with
  | nil => rfl
  | cons p rest ih =>
    by_cases h : p.1 = tid
    · simp [List.filter_cons, h]
    · simp [List.filter_cons, h]

theorem lookupQueue_removeQueue (ms : MessengerState) (tid : String) :
    lookupQueue (removeQueue ms tid) tid = none := by
  unfold lookupQueue removeQueue
  rw [find?_filter_self_none]
  rfl

/-- C4 counterexample: when `bus.publish_inbound` raises, the source
returns `None` from the `except` block before reaching the `try/finally`
around the wait, so the pending entry created at entry is **not**
removed: after this return, `deliver_adjustment("t1", …)` would find a
queue and enqueue into it rather than being a no-op. -/
theorem c4_counterexample :
    (request_adjustment ⟨[]⟩ "t1" [] false .timeout).1 = none ∧
      lookupQueue (request_adjustment ⟨[]⟩ "t1" [] false .timeout).2.1 "t1" = some [] ∧
      deliver_adjustment (request_adjustment ⟨[]⟩ "t1" [] false .timeout).2.1 "t1" [] ≠
        (request_adjustment ⟨[]⟩ "t1" [] false .timeout).2.1 := by
  refine ⟨rfl, rfl, ?_⟩
  decide

/-- C4 (amended): `request_adjustment` returns `none` rather than
raising on timeout; on every return of the delivered and timeout paths
(those that reach the `try/finally`, i.e. whenever the publish
succeeded) the pending entry has been removed, so that a subsequent
`deliver_adjustment` for that task_id is a logged no-op; when the
publish itself fails the function still returns `none` but the entry is
left in the table. -/
theorem c4_amended (ms : MessengerState) (tid : String) (ctx : List Msg) :
    (request_adjustment ms tid ctx true .timeout).1 = none ∧
      (∀ outcome, lookupQueue (request_adjustment ms tid ctx true outcome).2.1 tid = none) ∧
      (∀ ms' : MessengerState, ∀ adj, lookupQueue ms' tid = none →
        deliver_adjustment ms' tid adj = ms') ∧
      (∀ outcome adj,
        deliver_adjustment (request_adjustment ms tid ctx true outcome).2.1 tid adj =
          (request_adjustment ms tid ctx true outcome).2.1) ∧
      (request_adjustment ms tid ctx false .timeout).1 = none := by
  have hrm : ∀ outcome, lookupQueue (request_adjustment ms tid ctx true outcome).2.1 tid = none := by
    intro outcome
    cases outcome <;> exact lookupQueue_removeQueue _ tid
  have hnoop : ∀ ms' : MessengerState, ∀ adj, lookupQueue ms' tid = none →
      deliver_adjustment ms' tid adj = ms' := by
    intro ms' adj h
    unfold deliver_adjustment
    rw [h]
  exact ⟨rfl, hrm, hnoop, fun outcome adj => hnoop _ adj (hrm outcome), rfl⟩

/-- C4 witness: the amended theorem at a concrete table. -/
theorem c4_witness :
    (request_adjustment ⟨[("t2", [])]⟩ "t2" [] true .timeout).1 = none ∧
      (∀ outcome,
        lookupQueue (request_adjustment ⟨[("t2", [])]⟩ "t2" [] true outcome).2.1 "t2" = none) ∧
      (∀ ms' : MessengerState, ∀ adj, lookupQueue ms' "t2" = none →
        deliver_adjustment ms' "t2" adj = ms') ∧
      (∀ outcome adj,
        deliver_adjustment (request_adjustment ⟨[("t2", [])]⟩ "t2" [] true outcome).2.1 "t2" adj =
          (request_adjustment ⟨[("t2", [])]⟩ "t2" [] true outcome).2.1) ∧
      (request_adjustment ⟨[("t2", [])]⟩ "t2" [] false .timeout).1 = none :=
  c4_amended ⟨[("t2", [])]⟩ "t2" []

/-! ## C2: the iteration ceiling is exhausted with status still "running" -/

theorem runLoop_invariants (chat : Chat) (exec : Exec)
    (hchat : ∀ msgs, ∃ resp, chat msgs = Except.ok resp ∧ resp.tool_calls ≠ []) :
    ∀ fuel (st : SubagentState) (reqs : List AdjustmentRequest),
      (runLoop chat exec fuel st reqs).1.status = st.status ∧
      (st.iteration + fuel = st.max_iterations →
        (runLoop chat exec fuel st reqs).1.iteration = st.max_iterations) := by
  intro fuel
  induction fuel with
  | zero =>
    intro st reqs
    exact ⟨rfl, fun h => by simpa using h⟩
  | succ n ih =>
    intro st reqs
    by_cases hguard : st.iteration < st.max_iterations
    · obtain ⟨resp, hre, hnz⟩ := hchat st.messages
      rw [runLoop_succ_tools chat exec n st reqs resp hguard hre hnz]
      obtain ⟨ihs, ihi⟩ := ih (subIterState exec st resp) (subIterReqs exec st resp reqs)
      refine ⟨ihs, fun h => ?_⟩
      refine ihi ?_
      show (st.iteration + 1) + n = st.max_iterations
      omega
    · refine ⟨?_, fun h => absurd h (by omega)⟩
      simp only [runLoop, if_neg hguard]

/-- C2 counterexample: a subagent whose provider always requests a tool
call runs all 15 iterations and terminates with status still
`"running"` — not a terminal status, refuting "its TurnState status is a
terminal status other than completed". -/
theorem c2_counterexample :
    (run_subagent chatAlwaysTool execOk "tid" "task" []).1.status = "running" ∧
      isTerminalStatus (run_subagent chatAlwaysTool execOk "tid" "task" []).1.status = false := by
  decide

/-- C2 (amended): a subagent run whose provider responses always carry
tool calls (so the ReAct loop reaches the iteration ceiling of 15 with
no final answer and no provider error) terminates without raising, with
all 15 iterations consumed, and its `TurnState` status is not
`"completed"` — but no terminal status is assigned either: the status
field is left at `"running"`. -/
theorem c2_ceiling_remains_running (chat : Chat) (exec : Exec) (task_id task : String)
    (ctx : List (String × String))
    (hchat : ∀ msgs, ∃ resp, chat msgs = Except.ok resp ∧ resp.tool_calls ≠ []) :
    (run_subagent chat exec task_id task ctx).1.status = "running" ∧
      (run_subagent chat exec task_id task ctx).1.status ≠ "completed" ∧
      (run_subagent chat exec task_id task ctx).1.iteration = 15 := by
  obtain ⟨hs, hi⟩ := runLoop_invariants chat exec hchat 15 (initialSubagentState task_id task ctx) []
  unfold run_subagent
  refine ⟨hs, ?_, hi rfl⟩
  rw [hs]
  exact (by decide : ("running" : String) ≠ "completed")

/-- C2 witness: the amended theorem at the always-tool-calling provider. -/
theorem c2_witness :
    (run_subagent chatAlwaysTool execOk "tid" "task" []).1.status = "running" ∧
      (run_subagent chatAlwaysTool execOk "tid" "task" []).1.status ≠ "completed" ∧
      (run_subagent chatAlwaysTool execOk "tid" "task" []).1.iteration = 15 :=
  c2_ceiling_remains_running chatAlwaysTool execOk "tid" "task" []
    (fun _ => ⟨⟨none, [⟨"c1", "t", []⟩]⟩, rfl, by decide⟩)

/-! ## C6: failing tool calls produce error-content tool messages -/

/-- C6 counterexample: in the subagent loop a failing call of `tool1`
with detail `boom` appends a tool message whose content is
`"Error: boom"`, which is not of the form
`"Error executing {tool}: {detail}"` (it does not even start with
`"Error executing "`); the turn is still not aborted — the next
iteration runs and the turn completes. -/
theorem c6_counterexample :
    ((run_subagent chatOnce execFail "t" "task" []).1.messages[3]?.map Msg.content) =
        some "Error: boom" ∧
      ((run_subagent chatOnce execFail "t" "task" []).1.messages[3]?.map Msg.role) =
        some "tool" ∧
      String.isPrefixOf "Error executing " "Error: boom" = false ∧
      (run_subagent chatOnce execFail "t" "task" []).1.status = "completed" := by
  decide

/-- C6 (amended): a failing tool call appends one tool-role message with
an error-string content and never aborts the turn, but the error format
differs by venue: the main tools node uses
`"Error executing {tool}: {detail}"` while the subagent loop uses
`"Error: {detail}"`.  In both venues every remaining call of the same
iteration is still executed (the appended block covers all calls, in
order), and the subagent loop proceeds to its next iteration. -/
theorem c6_error_message_formats (exec : Exec) (tc : ToolCall) (e : String)
    (hfail : exec tc.name tc.arguments = .error e) :
    toolResultMsg exec tc =
        ⟨"tool", "Error executing " ++ tc.name ++ ": " ++ e, some tc.id, some tc.name, []⟩ ∧
      subToolMsg exec tc = ⟨"tool", "Error: " ++ e, some tc.id, some tc.name, []⟩ ∧
      (∀ st : AgentState, ∀ pre last, st.messages = pre ++ [last] → last.tool_calls ≠ [] →
        execute_tools exec st =
          .ok { st with messages := st.messages ++ last.tool_calls.map (toolResultMsg exec) }) ∧
      (∀ (chat : Chat) (fuel : Nat) (st : SubagentState) (reqs : List AdjustmentRequest)
          (resp : ProviderResponse),
        st.iteration < st.max_iterations → chat st.messages = Except.ok resp →
        resp.tool_calls ≠ [] →
        runLoop chat exec (fuel + 1) st reqs =
          runLoop chat exec fuel (subIterState exec st resp) (subIterReqs exec st resp reqs)) := by
  refine ⟨?_, ?_, fun st pre last hm hne => execute_tools_eq exec st pre last hm hne,
    fun chat fuel st reqs resp hguard hre hnz =>
      runLoop_succ_tools chat exec fuel st reqs resp hguard hre hnz⟩
  · unfold toolResultMsg
    rw [hfail]
  · unfold subToolMsg
    rw [hfail]

/-- C6 witness: the amended theorem at the always-failing registry. -/
theorem c6_witness :
    toolResultMsg execFail ⟨"i1", "tool1", []⟩ =
        ⟨"tool", "Error executing " ++ "tool1" ++ ": " ++ "boom", some "i1", some "tool1", []⟩ ∧
      subToolMsg execFail ⟨"i1", "tool1", []⟩ =
        ⟨"tool", "Error: " ++ "boom", some "i1", some "tool1", []⟩ ∧
      (∀ st : AgentState, ∀ pre last, st.messages = pre ++ [last] → last.tool_calls ≠ [] →
        execute_tools execFail st =
          .ok { st with messages := st.messages ++ last.tool_calls.map (toolResultMsg execFail) }) ∧
      (∀ (chat : Chat) (fuel : Nat) (st : SubagentState) (reqs : List AdjustmentRequest)
          (resp : ProviderResponse),
        st.iteration < st.max_iterations → chat st.messages = Except.ok resp →
        resp.tool_calls ≠ [] →
        runLoop chat execFail (fuel + 1) st reqs =
          runLoop chat execFail fuel (subIterState execFail st resp)
            (subIterReqs execFail st resp reqs)) :=
  c6_error_message_formats execFail ⟨"i1", "tool1", []⟩ "boom" rfl

/-! ## Lemmas on the shared task-list update of `_announce_completion` -/

theorem updateTaskList_mem_of_ne (tasks : List TaskEntry) (tid : String)
    (r : Option String) (now : String) (e : TaskEntry)
    (he : e ∈ tasks) (hne : e.task_id ≠ tid) :
    e ∈ updateTaskList tasks tid r now := by
  induction tasks with
  | nil => cases he
  | cons a rest ih =>
    rcases List.mem_cons.mp he with rfl | hrest
    · simp only [updateTaskList, if_neg hne]
      exact List.mem_cons_self _ _
    · by_cases h : a.task_id = tid
      · simp only [updateTaskList, if_pos h]
        exact List.mem_cons_of_mem _ hrest
      · simp only [updateTaskList, if_neg h]
        exact List.mem_cons_of_mem _ (ih hrest)

theorem updateTaskList_exists_completed (tasks : List TaskEntry) (tid : String)
    (r : Option String) (now : String)
    (hmem : ∃ e ∈ tasks, e.task_id = tid) :
    ∃ e ∈ updateTaskList tasks tid r now,
      e.task_id = tid ∧ e.status = "completed" ∧ e.result = r ∧ e.completed_at = some now := by
  induction tasks with
  | nil => obtain ⟨e, he, _⟩ := hmem; cases he
  | cons a rest ih =>
    by_cases h : a.task_id = tid
    · refine ⟨{ a with status := "completed", result := r, completed_at := some now },
        ?_, h, rfl, rfl, rfl⟩
      simp only [updateTaskList, if_pos h]
      exact List.mem_cons_self _ _
    · obtain ⟨e, he, hetid⟩ := hmem
      rcases List.mem_cons.mp he with rfl | hrest
      · exact absurd hetid h
      · obtain ⟨e', he', hprops⟩ := ih ⟨e, hrest, hetid⟩
        refine ⟨e', ?_, hprops⟩
        simp only [updateTaskList, if_neg h]
        exact List.mem_cons_of_mem _ he'

theorem updateTaskList_all_matching (tasks : List TaskEntry) (tid : String)
    (r : Option String) (now : String)
    (huniq : tasks.countP (fun e => e.task_id = tid) ≤ 1) :
    ∀ e ∈ updateTaskList tasks tid r now, e.task_id = tid →
      e.status = "completed" ∧ e.completed_at = some now ∧ e.result = r := by
  induction tasks with
  | nil => intro e he; cases he
  | cons a rest ih =>
    intro e he hetid
    by_cases h : a.task_id = tid
    · simp only [updateTaskList, if_pos h] at he
      rcases List.mem_cons.mp he with rfl | hrest
      · exact ⟨rfl, rfl, rfl⟩
      · exfalso
        have hpos : 0 < rest.countP (fun e => e.task_id = tid) :=
          List.countP_pos_iff.mpr ⟨e, hrest, by simp [hetid]⟩
        have hcnt : (a :: rest).countP (fun e => e.task_id = tid)
            = rest.countP (fun e => e.task_id = tid) + 1 :=
          List.countP_cons_of_pos _ rest (by simp [h])
        rw [hcnt] at huniq
        omega
    · simp only [updateTaskList, if_neg h] at he
      rcases List.mem_cons.mp he with rfl | hrest
      · exact absurd hetid h
      · have hcnt : (a :: rest).countP (fun e => e.task_id = tid)
            = rest.countP (fun e => e.task_id = tid) :=
          List.countP_cons_of_neg _ rest (by simpa using h)
        rw [hcnt] at huniq
        exact ih huniq e hrest hetid

theorem updateTaskList_no_failed (tasks : List TaskEntry) (tid : String)
    (r : Option String) (now : String) :
    ∀ e ∈ updateTaskList tasks tid r now, e.status = "failed" → e ∈ tasks := by
  induction tasks with
  | nil => intro e he; cases he
  | cons a rest ih =>
    intro e he hf
    by_cases h : a.task_id = tid
    · simp only [updateTaskList, if_pos h] at he
      rcases List.mem_cons.mp he with rfl | hrest
      · have hne2 : ("completed" : String) ≠ "failed" := by decide
        exact absurd hf hne2
      · exact List.mem_cons_of_mem _ hrest
    · simp only [updateTaskList, if_neg h] at he
      rcases List.mem_cons.mp he with rfl | hrest
      · exact List.mem_cons_self _ _
      · exact List.mem_cons_of_mem _ (ih e hrest hf)

/-! ## C10: the shared record is always marked "completed" -/

/-- C10: after `run_subagent` terminates — final answer, provider
failure, or ceiling exhaustion alike, since the provider and tool
oracles are arbitrary here — `_announce_completion` marks any matching
entry of the shared `subagent_tasks` list `"completed"` with a
`completed_at` timestamp, and the shared record is never set to
`"failed"` (an entry can only be `"failed"` afterwards if it already was
before). -/
theorem c10_shared_entry_always_completed (chat : Chat) (exec : Exec)
    (task_id task : String) (label : Option String) (ctx : List (String × String))
    (now : String) (state_ref : AgentState)
    (huniq : state_ref.subagent_tasks.countP (fun e => e.task_id = task_id) ≤ 1) :
    (∀ e ∈ (run_subagent_full chat exec task_id task label ctx now state_ref).2.subagent_tasks,
        e.task_id = task_id → e.status = "completed" ∧ e.completed_at = some now) ∧
      (∀ e ∈ (run_subagent_full chat exec task_id task label ctx now state_ref).2.subagent_tasks,
        e.status = "failed" → e ∈ state_ref.subagent_tasks) ∧
      ((∃ e ∈ state_ref.subagent_tasks, e.task_id = task_id) →
        ∃ e ∈ (run_subagent_full chat exec task_id task label ctx now state_ref).2.subagent_tasks,
          e.task_id = task_id ∧ e.status = "completed" ∧ e.completed_at = some now) := by
  refine ⟨fun e he h => ?_, fun e he hf => updateTaskList_no_failed _ _ _ _ e he hf,
    fun hmem => ?_⟩
  · obtain ⟨h1, h2, _⟩ := updateTaskList_all_matching _ _ _ _ huniq e he h
    exact ⟨h1, h2⟩
  · obtain ⟨e, he, h1, h2, _, h4⟩ := updateTaskList_exists_completed
      state_ref.subagent_tasks task_id
      (run_subagent chat exec task_id task ctx).1.result now hmem
    exact ⟨e, he, h1, h2, h4⟩

/-- C10 witness: a concrete shared list with one matching running entry,
run under the always-failing tool registry. -/
theorem c10_witness :
    (∀ e ∈ (run_subagent_full chatAlwaysTool execFail "T1" "do" none [] "t9"
        ⟨[], [], [⟨"T1", "running", none, "do", none, some "t0", none⟩]⟩).2.subagent_tasks,
        e.task_id = "T1" → e.status = "completed" ∧ e.completed_at = some "t9") ∧
      (∀ e ∈ (run_subagent_full chatAlwaysTool execFail "T1" "do" none [] "t9"
        ⟨[], [], [⟨"T1", "running", none, "do", none, some "t0", none⟩]⟩).2.subagent_tasks,
        e.status = "failed" →
          e ∈ (⟨[], [], [⟨"T1", "running", none, "do", none, some "t0", none⟩]⟩ :
            AgentState).subagent_tasks) ∧
      ((∃ e ∈ (⟨[], [], [⟨"T1", "running", none, "do", none, some "t0", none⟩]⟩ :
          AgentState).subagent_tasks, e.task_id = "T1") →
        ∃ e ∈ (run_subagent_full chatAlwaysTool execFail "T1" "do" none [] "t9"
          ⟨[], [], [⟨"T1", "running", none, "do", none, some "t0", none⟩]⟩).2.subagent_tasks,
          e.task_id = "T1" ∧ e.status = "completed" ∧ e.completed_at = some "t9") :=
  c10_shared_entry_always_completed chatAlwaysTool execFail "T1" "do" none [] "t9"
    ⟨[], [], [⟨"T1", "running", none, "do", none, some "t0", none⟩]⟩ (by decide)

/-! ## C5: concurrent completions lose no update -/

/-- Both completion records survive one sequential order of two atomic
`_announce_completion` blocks (the body has no suspension point, so
cooperative scheduling runs each block atomically; "nearly the same
instant" means the two blocks run back to back in some order). -/
theorem announce_pair_both_present (st : AgentState) (tid1 tid2 : String)
    (l1 l2 : Option String) (t1 t2 : String) (r1 r2 : Option String) (s1 s2 : String)
    (hne : tid1 ≠ tid2)
    (h1 : ∃ e ∈ st.subagent_tasks, e.task_id = tid1)
    (h2 : ∃ e ∈ st.subagent_tasks, e.task_id = tid2) :
    (∃ e ∈ (announce_completion tid2 l2 t2 r2 s2
        (announce_completion tid1 l1 t1 r1 s1 st)).subagent_tasks,
      e.task_id = tid1 ∧ e.status = "completed" ∧ e.completed_at = some s1) ∧
    (∃ e ∈ (announce_completion tid2 l2 t2 r2 s2
        (announce_completion tid1 l1 t1 r1 s1 st)).subagent_tasks,
      e.task_id = tid2 ∧ e.status = "completed" ∧ e.completed_at = some s2) ∧
    (⟨"system", announceContent l1 t1 r1, none, none, []⟩ : Msg) ∈
      (announce_completion tid2 l2 t2 r2 s2
        (announce_completion tid1 l1 t1 r1 s1 st)).messages ∧
    (⟨"system", announceContent l2 t2 r2, none, none, []⟩ : Msg) ∈
      (announce_completion tid2 l2 t2 r2 s2
        (announce_completion tid1 l1 t1 r1 s1 st)).messages := by
  refine ⟨?_, ?_, ?_, ?_⟩
  · obtain ⟨e, he, he1, he2, _, he4⟩ :=
      updateTaskList_exists_completed st.subagent_tasks tid1 r1 s1 h1
    exact ⟨e, updateTaskList_mem_of_ne _ tid2 r2 s2 e he (by rw [he1]; exact hne),
      he1, he2, he4⟩
  · obtain ⟨e2, he2', h2tid⟩ := h2
    have h2' : e2 ∈ updateTaskList st.subagent_tasks tid1 r1 s1 :=
      updateTaskList_mem_of_ne _ tid1 r1 s1 e2 he2' (by rw [h2tid]; exact hne.symm)
    obtain ⟨e, he, ha, hb, _, hd⟩ :=
      updateTaskList_exists_completed (updateTaskList st.subagent_tasks tid1 r1 s1)
        tid2 r2 s2 ⟨e2, h2', h2tid⟩
    exact ⟨e, he, ha, hb, hd⟩
  · show _ ∈ (st.messages ++ [(⟨"system", announceContent l1 t1 r1, none, none, []⟩ : Msg)])
      ++ [(⟨"system", announceContent l2 t2 r2, none, none, []⟩ : Msg)]
    simp
  · show _ ∈ (st.messages ++ [(⟨"system", announceContent l1 t1 r1, none, none, []⟩ : Msg)])
      ++ [(⟨"system", announceContent l2 t2 r2, none, none, []⟩ : Msg)]
    simp

/-- C5: when two subagents complete at nearly the same instant — their
atomic `_announce_completion` blocks running back to back in either
order — neither completion is lost: in both orders, both shared task
entries end `"completed"` with their own timestamps and both
completion-summary system messages are present in the parent message
log. -/
theorem c5_no_lost_update (st : AgentState) (tidA tidB : String)
    (lA lB : Option String) (tA tB : String) (rA rB : Option String) (sA sB : String)
    (hne : tidA ≠ tidB)
    (hA : ∃ e ∈ st.subagent_tasks, e.task_id = tidA)
    (hB : ∃ e ∈ st.subagent_tasks, e.task_id = tidB) :
    ((∃ e ∈ (announce_completion tidB lB tB rB sB
        (announce_completion tidA lA tA rA sA st)).subagent_tasks,
        e.task_id = tidA ∧ e.status = "completed" ∧ e.completed_at = some sA) ∧
      (∃ e ∈ (announce_completion tidB lB tB rB sB
        (announce_completion tidA lA tA rA sA st)).subagent_tasks,
        e.task_id = tidB ∧ e.status = "completed" ∧ e.completed_at = some sB) ∧
      (⟨"system", announceContent lA tA rA, none, none, []⟩ : Msg) ∈
        (announce_completion tidB lB tB rB sB
          (announce_completion tidA lA tA rA sA st)).messages ∧
      (⟨"system", announceContent lB tB rB, none, none, []⟩ : Msg) ∈
        (announce_completion tidB lB tB rB sB
          (announce_completion tidA lA tA rA sA st)).messages) ∧
    ((∃ e ∈ (announce_completion tidA lA tA rA sA
        (announce_completion tidB lB tB rB sB st)).subagent_tasks,
        e.task_id = tidB ∧ e.status = "completed" ∧ e.completed_at = some sB) ∧
      (∃ e ∈ (announce_completion tidA lA tA rA sA
        (announce_completion tidB lB tB rB sB st)).subagent_tasks,
        e.task_id = tidA ∧ e.status = "completed" ∧ e.completed_at = some sA) ∧
      (⟨"system", announceContent lB tB rB, none, none, []⟩ : Msg) ∈
        (announce_completion tidA lA tA rA sA
          (announce_completion tidB lB tB rB sB st)).messages ∧
      (⟨"system", announceContent lA tA rA, none, none, []⟩ : Msg) ∈
        (announce_completion tidA lA tA rA sA
          (announce_completion tidB lB tB rB sB st)).messages) :=
  ⟨announce_pair_both_present st tidA tidB lA lB tA tB rA rB sA sB hne hA hB,
    announce_pair_both_present st tidB tidA lB lA tB tA rB rA sB sA hne.symm hB hA⟩

/-- C5 witness: two concrete running entries completing in both orders. -/
theorem c5_witness :
    ((∃ e ∈ (announce_completion "B" none "tb" (some "rb") "s2"
        (announce_completion "A" none "ta" (some "ra") "s1"
          ⟨[], [], [⟨"A", "running", none, "ta", none, none, none⟩,
            ⟨"B", "running", none, "tb", none, none, none⟩]⟩)).subagent_tasks,
        e.task_id = "A" ∧ e.status = "completed" ∧ e.completed_at = some "s1") ∧
      (∃ e ∈ (announce_completion "B" none "tb" (some "rb") "s2"
        (announce_completion "A" none "ta" (some "ra") "s1"
          ⟨[], [], [⟨"A", "running", none, "ta", none, none, none⟩,
            ⟨"B", "running", none, "tb", none, none, none⟩]⟩)).subagent_tasks,
        e.task_id = "B" ∧ e.status = "completed" ∧ e.completed_at = some "s2") ∧
      (⟨"system", announceContent none "ta" (some "ra"), none, none, []⟩ : Msg) ∈
        (announce_completion "B" none "tb" (some "rb") "s2"
          (announce_completion "A" none "ta" (some "ra") "s1"
            ⟨[], [], [⟨"A", "running", none, "ta", none, none, none⟩,
              ⟨"B", "running", none, "tb", none, none, none⟩]⟩)).messages ∧
      (⟨"system", announceContent none "tb" (some "rb"), none, none, []⟩ : Msg) ∈
        (announce_completion "B" none "tb" (some "rb") "s2"
          (announce_completion "A" none "ta" (some "ra") "s1"
            ⟨[], [], [⟨"A", "running", none, "ta", none, none, none⟩,
              ⟨"B", "running", none, "tb", none, none, none⟩]⟩)).messages) ∧
    ((∃ e ∈ (announce_completion "A" none "ta" (some "ra") "s1"
        (announce_completion "B" none "tb" (some "rb") "s2"
          ⟨[], [], [⟨"A", "running", none, "ta", none, none, none⟩,
            ⟨"B", "running", none, "tb", none, none, none⟩]⟩)).subagent_tasks,
        e.task_id = "B" ∧ e.status = "completed" ∧ e.completed_at = some "s2") ∧
      (∃ e ∈ (announce_completion "A" none "ta" (some "ra") "s1"
        (announce_completion "B" none "tb" (some "rb") "s2"
          ⟨[], [], [⟨"A", "running", none, "ta", none, none, none⟩,
            ⟨"B", "running", none, "tb", none, none, none⟩]⟩)).subagent_tasks,
        e.task_id = "A" ∧ e.status = "completed" ∧ e.completed_at = some "s1") ∧
      (⟨"system", announceContent none "tb" (some "rb"), none, none, []⟩ : Msg) ∈
        (announce_completion "A" none "ta" (some "ra") "s1"
          (announce_completion "B" none "tb" (some "rb") "s2"
            ⟨[], [], [⟨"A", "running", none, "ta", none, none, none⟩,
              ⟨"B", "running", none, "tb", none, none, none⟩]⟩)).messages ∧
      (⟨"system", announceContent none "ta" (some "ra"), none, none, []⟩ : Msg) ∈
        (announce_completion "A" none "ta" (some "ra") "s1"
          (announce_completion "B" none "tb" (some "rb") "s2"
            ⟨[], [], [⟨"A", "running", none, "ta", none, none, none⟩,
              ⟨"B", "running", none, "tb", none, none, none⟩]⟩)).messages) :=
  c5_no_lost_update
    ⟨[], [], [⟨"A", "running", none, "ta", none, none, none⟩,
      ⟨"B", "running", none, "tb", none, none, none⟩]⟩
    "A" "B" none none "ta" "tb" (some "ra") (some "rb") "s1" "s2"
    (by decide)
    ⟨⟨"A", "running", none, "ta", none, none, none⟩, by simp, rfl⟩
    ⟨⟨"B", "running", none, "tb", none, none, none⟩, by simp, rfl⟩

/-! ## C8: adjustment requests — cadence, payload, timeout -/

theorem runLoop_succ_error (chat : Chat) (exec : Exec) (fuel : Nat)
    (st : SubagentState) (reqs : List AdjustmentRequest) (e : String)
    (hguard : st.iteration < st.max_iterations)
    (hre : chat st.messages = Except.error e) :
    runLoop chat exec (fuel + 1) st reqs =
      ({ st with
          iteration := st.iteration + 1
          status := "failed"
          result := some ("Error: " ++ e) }, reqs) := by
  simp only [runLoop, if_pos hguard]
  rw [show ({ st with iteration := st.iteration + 1 } : SubagentState).messages
      = st.messages from rfl]
  rw [hre]

theorem runLoop_succ_done (chat : Chat) (exec : Exec) (fuel : Nat)
    (st : SubagentState) (reqs : List AdjustmentRequest) (resp : ProviderResponse)
    (hguard : st.iteration < st.max_iterations)
    (hre : chat st.messages = Except.ok resp)
    (hnil : resp.tool_calls = []) :
    runLoop chat exec (fuel + 1) st reqs =
      ({ st with
          iteration := st.iteration + 1
          result := resp.content
          status := "completed" }, reqs) := by
  obtain ⟨rc, rt⟩ := resp
  cases rt with
  | cons tc tcs => exact absurd hnil (by simp)
  | nil =>
    simp only [runLoop, if_pos hguard]
    rw [show ({ st with iteration := st.iteration + 1 } : SubagentState).messages
        = st.messages from rfl]
    rw [hre]

theorem runLoop_stop (chat : Chat) (exec : Exec) (fuel : Nat)
    (st : SubagentState) (reqs : List AdjustmentRequest)
    (hguard : ¬ st.iteration < st.max_iterations) :
    runLoop chat exec (fuel + 1) st reqs = (st, reqs) := by
  simp only [runLoop, if_neg hguard]

theorem prefix_subIterState (exec : Exec) (st : SubagentState) (resp : ProviderResponse) :
    st.messages <+: (subIterState exec st resp).messages :=
  ⟨[⟨"assistant", pyOrStr resp.content "", none, none, resp.tool_calls⟩]
    ++ resp.tool_calls.map (subToolMsg exec), by simp [subIterState]⟩

/-- The message log only ever grows during the subagent loop. -/
theorem runLoop_messages_extend (chat : Chat) (exec : Exec) :
    ∀ fuel (st : SubagentState) (reqs : List AdjustmentRequest),
      st.messages <+: (runLoop chat exec fuel st reqs).1.messages := by
  intro fuel
  induction fuel with
  | zero => intro st reqs; exact List.prefix_refl _
  | succ n ih =>
    intro st reqs
    by_cases hguard : st.iteration < st.max_iterations
    · cases hre : chat st.messages with
      | error e =>
        rw [runLoop_succ_error chat exec n st reqs e hguard hre]
      | ok resp =>
        cases hcalls : resp.tool_calls with
        | nil =>
          rw [runLoop_succ_done chat exec n st reqs resp hguard hre hcalls]
        | cons tc tcs =>
          rw [runLoop_succ_tools chat exec n st reqs resp hguard hre (by simp [hcalls])]
          exact (prefix_subIterState exec st resp).trans
            (ih (subIterState exec st resp) (subIterReqs exec st resp reqs))
    · rw [runLoop_stop chat exec n st reqs hguard]

/-- Every adjustment request the loop issues carries the subagent's
task_id and, as context, the **whole** message log as of the request
(hence a prefix of the final log). -/
theorem runLoop_requests_sound (chat : Chat) (exec : Exec) :
    ∀ fuel (st : SubagentState) (reqs : List AdjustmentRequest),
      (∀ r ∈ reqs, r.task_id = st.task_id ∧ r.context <+: st.messages) →
      ∀ r ∈ (runLoop chat exec fuel st reqs).2,
        r.task_id = st.task_id ∧ r.context <+: (runLoop chat exec fuel st reqs).1.messages := by
  intro fuel
  induction fuel with
  | zero => intro st reqs hpre r hr; exact hpre r hr
  | succ n ih =>
    intro st reqs hpre
    by_cases hguard : st.iteration < st.max_iterations
    · cases hre : chat st.messages with
      | error e =>
        rw [runLoop_succ_error chat exec n st reqs e hguard hre]
        exact fun r hr => hpre r hr
      | ok resp =>
        cases hcalls : resp.tool_calls with
        | nil =>
          rw [runLoop_succ_done chat exec n st reqs resp hguard hre hcalls]
          exact fun r hr => hpre r hr
        | cons tc tcs =>
          rw [runLoop_succ_tools chat exec n st reqs resp hguard hre (by simp [hcalls])]
          intro r hr
          have hnext : ∀ r ∈ subIterReqs exec st resp reqs,
              r.task_id = (subIterState exec st resp).task_id ∧
                r.context <+: (subIterState exec st resp).messages := by
            intro r hr
            unfold subIterReqs at hr
            by_cases hmod : (st.iteration + 1) % 3 = 0
            · rw [if_pos hmod] at hr
              rcases List.mem_append.mp hr with hold | hnew
              · obtain ⟨ha, hb⟩ := hpre r hold
                exact ⟨ha, hb.trans (prefix_subIterState exec st resp)⟩
              · have : r = ⟨st.task_id, (subIterState exec st resp).messages⟩ := by
                  simpa using hnew
                subst this
                exact ⟨rfl, List.prefix_refl _⟩
            · rw [if_neg hmod] at hr
              obtain ⟨ha, hb⟩ := hpre r hr
              exact ⟨ha, hb.trans (prefix_subIterState exec st resp)⟩
          exact ih (subIterState exec st resp) (subIterReqs exec st resp reqs) hnext r hr
    · rw [runLoop_stop chat exec n st reqs hguard]
      exact fun r hr => hpre r hr

/-- C8 counterexample: with a provider that tool-calls for three
iterations and then answers, the single adjustment request (issued at
iteration 3) carries the **entire** message log — all 8 messages present
at that moment, which is also the final log verbatim — not a bounded
(at most 5 message) tail of it. -/
theorem c8_counterexample :
    ((run_subagent chatThree execOk "tid" "task" []).2.map (fun r => r.context.length)) = [8] ∧
      ((run_subagent chatThree execOk "tid" "task" []).2.headD ⟨"", []⟩).context =
        (run_subagent chatThree execOk "tid" "task" []).1.messages ∧
      ¬ (8 ≤ 5) := by
  decide

/-- C8 (amended): every 3rd iteration (while the provider keeps
requesting tools) the manager calls `request_adjustment`, but passes the
**full** current message log (every request context is the log as of the
request, a prefix of the final log); it is the messenger that bounds the
published payload to the last 5 messages; the wait has a 30-second
timeout that evaluates to `none` on expiry (the loop discards the result
either way, so the subagent proceeds with its plan unmodified); a
15-iteration tool-calling run issues exactly 5 requests. -/
theorem c8_adjustment_cadence_and_payload :
    (∀ (chat : Chat) (exec : Exec) (task_id task : String) (ctx : List (String × String)),
        ∀ r ∈ (run_subagent chat exec task_id task ctx).2,
          r.task_id = task_id ∧
            r.context <+: (run_subagent chat exec task_id task ctx).1.messages) ∧
      (∀ (ms : MessengerState) (tid : String) (ctx : List Msg) (outcome : WaitOutcome),
        (request_adjustment ms tid ctx true outcome).2.2 = [⟨tid, contextTail ctx⟩]) ∧
      (∀ ctx : List Msg, (contextTail ctx).length = min 5 ctx.length) ∧
      (∀ (ms : MessengerState) (tid : String) (ctx : List Msg),
        (request_adjustment ms tid ctx true .timeout).1 = none) ∧
      ((run_subagent chatAlwaysTool execOk "tid" "task" []).2.length = 5) := by
  refine ⟨?_, ?_, ?_, fun ms tid ctx => rfl, by decide⟩
  · intro chat exec task_id task ctx r hr
    exact runLoop_requests_sound chat exec 15 (initialSubagentState task_id task ctx) []
      (fun r hr => absurd hr (List.not_mem_nil r)) r hr
  · intro ms tid ctx outcome
    cases outcome <;> rfl
  · intro ctx
    unfold contextTail
    by_cases h : ctx.length > 5
    · rw [if_pos h]
      simp only [List.length_drop]
      omega
    · rw [if_neg h]
      omega

/-- C8 witness: the first request of the `chatThree` run, via the
amended theorem at the concrete run. -/
theorem c8_witness :
    ((run_subagent chatThree execOk "tid" "task" []).2.headD ⟨"", []⟩).task_id = "tid" ∧
      ((run_subagent chatThree execOk "tid" "task" []).2.headD ⟨"", []⟩).context <+:
        (run_subagent chatThree execOk "tid" "task" []).1.messages :=
  c8_adjustment_cadence_and_payload.1 chatThree execOk "tid" "task" [] _ (by decide)

/-! ## C1: serialization and FIFO order of the two-turn execution -/

/-- Under the FIFO lock, the two concurrently submitted turns admit
exactly one execution: every reachable state is one of the seven states
of the serialized run. -/
theorem dreach_enum (s : DispatchState) (h : DReach initTwo s) :
    s = initTwo ∨ s = dState1 ∨ s = dState2 ∨ s = dState3 ∨
      s = dState4 ∨ s = dState5 ∨ s = dState6 := by
  induction h with
  | refl => exact Or.inl rfl
  | tail hr hstep ih =>
    rcases ih with rfl | rfl | rfl | rfl | rfl | rfl | rfl
    · cases hstep with
      | grant i rest hown hw =>
        have hw' : (0 : Nat) :: [1] = i :: rest := hw
        injection hw' with h1 h2
        subst h1; subst h2
        exact Or.inr (Or.inl rfl)
      | launch i hph hown => exact absurd hown (by simp [initTwo])
      | finish i hph => exact absurd hph (by simp [initTwo])
    · cases hstep with
      | grant i rest hown hw => exact absurd hown (by simp [dState1])
      | launch i hph hown =>
        have h1 : (0 : Nat) = i := by simpa [dState1] using hown
        subst h1
        exact Or.inr (Or.inr (Or.inl rfl))
      | finish i hph =>
        refine absurd hph ?_
        by_cases hi : i = 0 <;> simp [dState1, initTwo, setPhase, hi]
    · cases hstep with
      | grant i rest hown hw => exact absurd hown (by simp [dState2])
      | launch i hph hown =>
        have h1 : (0 : Nat) = i := by simpa [dState2] using hown
        subst h1
        exact absurd hph (by simp [dState2, dState1, initTwo, setPhase])
      | finish i hph =>
        have hi : i = 0 := by
          by_contra hne
          simp [dState2, dState1, initTwo, setPhase, hne] at hph
        subst hi
        exact Or.inr (Or.inr (Or.inr (Or.inl rfl)))
    · cases hstep with
      | grant i rest hown hw =>
        have hw' : (1 : Nat) :: [] = i :: rest := hw
        injection hw' with h1 h2
        subst h1; subst h2
        exact Or.inr (Or.inr (Or.inr (Or.inr (Or.inl rfl))))
      | launch i hph hown => exact absurd hown (by simp [dState3])
      | finish i hph =>
        refine absurd hph ?_
        by_cases hi : i = 0 <;> simp [dState3, dState2, dState1, initTwo, setPhase, hi]
    · cases hstep with
      | grant i rest hown hw => exact absurd hown (by simp [dState4])
      | launch i hph hown =>
        have h1 : (1 : Nat) = i := by simpa [dState4] using hown
        subst h1
        exact Or.inr (Or.inr (Or.inr (Or.inr (Or.inr (Or.inl rfl)))))
      | finish i hph =>
        refine absurd hph ?_
        by_cases hi : i = 1 <;> by_cases hj : i = 0 <;>
          simp [dState4, dState3, dState2, dState1, initTwo, setPhase, hi, hj]
    · cases hstep with
      | grant i rest hown hw =>
        have hw' : ([] : List Nat) = i :: rest := hw
        cases hw'
      | launch i hph hown =>
        have h1 : (1 : Nat) = i := by simpa [dState5] using hown
        subst h1
        exact absurd hph
          (by simp [dState5, dState4, dState3, dState2, dState1, initTwo, setPhase])
      | finish i hph =>
        have hi : i = 1 := by
          by_contra hne
          by_cases hj : i = 0 <;>
            simp [dState5, dState4, dState3, dState2, dState1, initTwo, setPhase, hne, hj]
              at hph
        subst hi
        exact Or.inr (Or.inr (Or.inr (Or.inr (Or.inr (Or.inr rfl)))))
    · cases hstep with
      | grant i rest hown hw =>
        have hw' : ([] : List Nat) = i :: rest := hw
        cases hw'
      | launch i hph hown => exact absurd hown (by simp [dState6])
      | finish i hph =>
        refine absurd hph ?_
        by_cases hi : i = 1 <;> by_cases hj : i = 0 <;>
          simp [dState6, dState5, dState4, dState3, dState2, dState1, initTwo, setPhase, hi, hj]

/-- None of the six intermediate states is stuck. -/
theorem dstates_progress :
    (∃ s', DStep initTwo s') ∧ (∃ s', DStep dState1 s') ∧ (∃ s', DStep dState2 s') ∧
      (∃ s', DStep dState3 s') ∧ (∃ s', DStep dState4 s') ∧ (∃ s', DStep dState5 s') :=
  ⟨⟨_, DStep.grant initTwo 0 [1] rfl rfl⟩,
    ⟨_, DStep.launch dState1 0 rfl rfl⟩,
    ⟨_, DStep.finish dState2 0 rfl⟩,
    ⟨_, DStep.grant dState3 1 [] rfl rfl⟩,
    ⟨_, DStep.launch dState4 1 rfl rfl⟩,
    ⟨_, DStep.finish dState5 1 rfl⟩⟩

/-- Mutual exclusion in every reachable state. -/
theorem dreach_mutex (s : DispatchState) (h : DReach initTwo s) :
    ∀ i j, isRunning s i → isRunning s j → i = j := by
  rcases dreach_enum s h with rfl | rfl | rfl | rfl | rfl | rfl | rfl <;> intro i j hi hj
  · simp [isRunning, initTwo] at hi
  · exact absurd hi (by by_cases h0 : i = 0 <;> simp [isRunning, dState1, initTwo, setPhase, h0])
  · have hi0 : i = 0 := by
      by_contra hne
      simp [isRunning, dState2, dState1, initTwo, setPhase, hne] at hi
    have hj0 : j = 0 := by
      by_contra hne
      simp [isRunning, dState2, dState1, initTwo, setPhase, hne] at hj
    rw [hi0, hj0]
  · exact absurd hi (by
      by_cases h0 : i = 0 <;>
        simp [isRunning, dState3, dState2, dState1, initTwo, setPhase, h0])
  · exact absurd hi (by
      by_cases h1 : i = 1 <;> by_cases h0 : i = 0 <;>
        simp [isRunning, dState4, dState3, dState2, dState1, initTwo, setPhase, h1, h0])
  · have hi1 : i = 1 := by
      by_contra hne
      by_cases h0 : i = 0 <;>
        simp [isRunning, dState5, dState4, dState3, dState2, dState1, initTwo, setPhase,
          hne, h0] at hi
    have hj1 : j = 1 := by
      by_contra hne
      by_cases h0 : j = 0 <;>
        simp [isRunning, dState5, dState4, dState3, dState2, dState1, initTwo, setPhase,
          hne, h0] at hj
    rw [hi1, hj1]
  · exact absurd hi (by
      by_cases h1 : i = 1 <;> by_cases h0 : i = 0 <;>
        simp [isRunning, dState6, dState5, dState4, dState3, dState2, dState1, initTwo,
          setPhase, h1, h0])

/-- C1 (modelled from the spec; `nanobot/agent/loop.py` is absent from
the sources): with two turns dispatched concurrently to one session key
and serialized by the FIFO session lock, every reachable scheduler state
has at most one running turn, and every complete (stuck) execution
observes exactly the strictly sequential FIFO interleaving
`start 0, finish 0, start 1, finish 1`. -/
theorem c1_serialized_fifo (s : DispatchState) (h : DReach initTwo s) :
    (∀ i j, isRunning s i → isRunning s j → i = j) ∧
      (DStuck s → s.trace = [.start 0, .finish 0, .start 1, .finish 1]) := by
  refine ⟨dreach_mutex s h, fun hstuck => ?_⟩
  rcases dreach_enum s h with rfl | rfl | rfl | rfl | rfl | rfl | rfl
  · exact absurd dstates_progress.1 hstuck
  · exact absurd dstates_progress.2.1 hstuck
  · exact absurd dstates_progress.2.2.1 hstuck
  · exact absurd dstates_progress.2.2.2.1 hstuck
  · exact absurd dstates_progress.2.2.2.2.1 hstuck
  · exact absurd dstates_progress.2.2.2.2.2 hstuck
  · rfl

/-- The complete execution is reachable. -/
theorem dreach_dState6 : DReach initTwo dState6 := by
  have g1 : DStep initTwo dState1 := DStep.grant initTwo 0 [1] rfl rfl
  have g2 : DStep dState1 dState2 := DStep.launch dState1 0 rfl rfl
  have g3 : DStep dState2 dState3 := DStep.finish dState2 0 rfl
  have g4 : DStep dState3 dState4 := DStep.grant dState3 1 [] rfl rfl
  have g5 : DStep dState4 dState5 := DStep.launch dState4 1 rfl rfl
  have g6 : DStep dState5 dState6 := DStep.finish dState5 1 rfl
  exact Relation.ReflTransGen.tail
    (Relation.ReflTransGen.tail
      (Relation.ReflTransGen.tail
        (Relation.ReflTransGen.tail
          (Relation.ReflTransGen.tail (Relation.ReflTransGen.single g1) g2) g3) g4) g5) g6

/-- C1 witness: the theorem at the reachable final state. -/
theorem c1_witness :
    (∀ i j, isRunning dState6 i → isRunning dState6 j → i = j) ∧
      (DStuck dState6 → dState6.trace = [.start 0, .finish 0, .start 1, .finish 1]) :=
  c1_serialized_fifo dState6 dreach_dState6

end Nanobot
